import Mathlib

/-!
Verification of the progressbar renderer (lib/progressbar.c) against its
specification. The C source is embedded shallowly: machine arithmetic is
modelled with `Int`/`Nat` (with explicit reductions modulo 2 ^ 64 or 2 ^ 32
where a C conversion to `size_t` or `unsigned int` occurs), C `double`
arithmetic is modelled with `Rat`, and the bytes written to `stderr` are
modelled as a `List Char` returned by each operation.
-/

/-- How wide we assume the screen is if termcap fails (enum in the source). -/
def DEFAULT_SCREEN_WIDTH : Nat := 80

/-- The smallest that the bar can ever be, borders included (enum). -/
def MINIMUM_BAR_WIDTH : Int := 10

/-- The maximum number of characters that the ETA format can yield (enum). -/
def ETA_FORMAT_LENGTH : Int := 13

/-- Screen width taken up by whitespace between label, bar and ETA (enum). -/
def WHITESPACE_LENGTH : Int := 2

/-- Width taken up by the border of the bar component (enum). -/
def BAR_BORDER_WIDTH : Int := 2

/-- The progressbar state, struct `_progressbar_t` from progressbar.h.
The C header stores `value` and `percent` in an anonymous union discriminated
by the sign of `max` (a negative `max` marks percent mode); the model carries
both members and each operation reads only the member its mode wrote, which
matches every access in the source (the one union-punned read is documented
at `progressbar_value_pos`). `format` is flattened into its four character
fields; `begin` and `end` are Lean keywords, hence the `fmt` prefixes.
`tumbler_length` is derived from the list instead of being stored. -/
structure progressbar where
  max : Int
  value : Int
  percent : Rat
  start : Int
  label : List Char
  fmtBegin : Char
  fmtFill : Char
  fmtUnfilled : Char
  fmtEnd : Char
  tumblerFormat : List Char
  tumblerPos : Nat
deriving Repr, DecidableEq

/-- `bar->tumbler_length`, stored by `progressbar_assign_values` as
`strlen(tumbler_format)` (0 for a NULL tumbler format). -/
def tumbler_length (bar : progressbar) : Nat := bar.tumblerFormat.length

/-- `progressbar_max` from the source: `x > y ? x : y`. -/
def progressbar_max (x y : Int) : Int := if x > y then x else y

/-- `progressbar_bar_width`:
`max(MINIMUM_BAR_WIDTH, screen_width - label_length - ETA_FORMAT_LENGTH - WHITESPACE_LENGTH)`. -/
def progressbar_bar_width (screen_width label_length : Int) : Int :=
  progressbar_max MINIMUM_BAR_WIDTH
    (screen_width - label_length - ETA_FORMAT_LENGTH - WHITESPACE_LENGTH)

/-- `progressbar_label_width`: if the label plus bar plus ETA do not fit on
the screen, the label is truncated (possibly to zero). -/
def progressbar_label_width (screen_width label_length bar_width : Int) : Int :=
  if label_length + 1 + bar_width + 1 + ETA_FORMAT_LENGTH > screen_width then
    progressbar_max 0 (screen_width - bar_width - ETA_FORMAT_LENGTH - WHITESPACE_LENGTH)
  else
    label_length

/-- C conversion of a `double` to `int` truncates toward zero. On a rational
`num / den` (with `den > 0`) that truncation is exactly t-division of the
numerator by the denominator. -/
def truncToInt (q : Rat) : Int := Int.tdiv q.num (q.den : Int)

/-- C conversion of an `int` to `size_t` (64-bit): reduction modulo 2 ^ 64.
This conversion happens at both `progressbar_write_char` call sites in
`progressbar_draw`, whose `times` parameter is a `size_t`. -/
def toSizeT (n : Int) : Nat := (n % (2 : Int) ^ 64).toNat

/-- `progressbar_write_char`: emit `ch` exactly `times` times. -/
def progressbar_write_char (ch : Char) (times : Nat) : List Char :=
  List.replicate times ch

/-- The guard `bar->value > 0` in `progressbar_remaining_seconds`. In steps
mode this reads the `value` union member. In percent mode the C reads the
IEEE-754 bit pattern of the `percent` member as a `long`; for the finite
doubles the library stores, that signed bit pattern is positive exactly when
`percent > 0` (sign bit clear, some mantissa or exponent bit set), which is
what the model tests. -/
def progressbar_value_pos (bar : progressbar) : Bool :=
  if bar.max < 0 then 0 < bar.percent else 0 < bar.value

/-- `progressbar_remaining_seconds`: estimated remaining seconds, from the
elapsed time `difftime(time(NULL), bar->start)` (exact here since both
instants are integral) scaled by the remaining share of the work. The
`double` result is truncated toward zero by the `return` conversion. -/
def progressbar_remaining_seconds (bar : progressbar) (now : Int) : Int :=
  let offset : Int := now - bar.start
  if progressbar_value_pos bar ∧ 0 < offset then
    if bar.max < 0 then
      truncToInt (((offset : Rat) / bar.percent) * (1 - bar.percent))
    else
      truncToInt (((offset : Rat) / (bar.value : Rat)) * (((bar.max - bar.value : Int)) : Rat))
  else
    0

/-- `progressbar_time_components`: a duration split into hours, minutes and
seconds. -/
structure progressbar_time_components where
  hours : Int
  minutes : Int
  seconds : Int
deriving Repr, DecidableEq

/-- `progressbar_calc_time_components`. C `int` division truncates toward
zero, hence `Int.tdiv`. -/
def progressbar_calc_time_components (seconds : Int) : progressbar_time_components :=
  let hours := Int.tdiv seconds 3600
  let s1 := seconds - hours * 3600
  let minutes := Int.tdiv s1 60
  let s2 := s1 - minutes * 60
  { hours := hours, minutes := minutes, seconds := s2 }

/-- Decimal digit characters of an integer, sign included. -/
def intChars (n : Int) : List Char :=
  if n < 0 then '-' :: Nat.toDigits 10 n.natAbs else Nat.toDigits 10 n.natAbs

/-- printf `%2d`: right-justified in a field of width 2, space padded, and
wider than 2 columns when the value needs more digits. -/
def fmtSpace2 (n : Int) : List Char :=
  List.replicate (2 - (intChars n).length) ' ' ++ intChars n

/-- printf `%02d`: zero padded to width 2; the zero padding of a negative
value goes between the sign and the digits. -/
def fmtZero2 (n : Int) : List Char :=
  if n < 0 then
    '-' :: (List.replicate (1 - (Nat.toDigits 10 n.natAbs).length) '0' ++ Nat.toDigits 10 n.natAbs)
  else
    List.replicate (2 - (Nat.toDigits 10 n.natAbs).length) '0' ++ Nat.toDigits 10 n.natAbs

/-- The formatted time column: `ELAPSED_FORMAT` (four spaces) when the bar is
completed, `ETA_FORMAT` (the prefix `ETA:`) otherwise, then
`%2dh%02dm%02ds`. -/
def progressbar_time_field (completed : Bool) (t : progressbar_time_components) : List Char :=
  (if completed then "    " else "ETA:").toList
    ++ fmtSpace2 t.hours ++ ['h']
    ++ fmtZero2 t.minutes ++ ['m']
    ++ fmtZero2 t.seconds ++ ['s']

/-- `progressbar_completed` in `progressbar_draw`:
`bar->max < 0 ? (bar->percent >= 1.0) : (bar->value >= bar->max)`. -/
def progressbar_completed (bar : progressbar) : Bool :=
  if bar.max < 0 then 1 ≤ bar.percent else bar.max ≤ bar.value

/-- The progress share used by `progressbar_draw`:
`bar->max < 0 ? bar->percent : ((double) bar->value / bar->max)`. -/
def progressbar_progress (bar : progressbar) : Rat :=
  if bar.max < 0 then bar.percent else (bar.value : Rat) / (bar.max : Rat)

/-- `bar_piece_count` in `progressbar_draw`: interior cells of the bar,
computed from `bar_width` before any later adjustment of `bar_width`. -/
def progressbar_piece_count (bar : progressbar) (screen_width : Int) : Int :=
  progressbar_bar_width screen_width (bar.label.length : Int) - BAR_BORDER_WIDTH

/-- `bar_piece_current` right after its first assignment in
`progressbar_draw`: all pieces when completed, otherwise the truncation of
`bar_piece_count * progress` (an `int * double` product assigned to an
`int`). -/
def progressbar_piece_raw (bar : progressbar) (screen_width : Int) : Int :=
  if progressbar_completed bar then
    progressbar_piece_count bar screen_width
  else
    truncToInt ((progressbar_piece_count bar screen_width : Rat) * progressbar_progress bar)

/-- `bar_piece_current` after the tumbler adjustment: one cell is given up
for the tumbler only when the bar is not completed, a tumbler is configured,
and the raw fill count is nonzero. -/
def progressbar_piece_current (bar : progressbar) (screen_width : Int) : Int :=
  if progressbar_completed bar ∨ tumbler_length bar = 0 then
    progressbar_piece_raw bar screen_width
  else if progressbar_piece_raw bar screen_width = 0 then
    progressbar_piece_raw bar screen_width
  else
    progressbar_piece_raw bar screen_width - 1

/-- The condition of the tumbler emission branch in `progressbar_draw`:
`bar->tumbler_length > 0 && bar_piece_current < bar_piece_count`. -/
def progressbar_spinner_drawn (bar : progressbar) (screen_width : Int) : Bool :=
  0 < tumbler_length bar ∧
    progressbar_piece_current bar screen_width < progressbar_piece_count bar screen_width

/-- The `size_t` repeat count handed to `progressbar_write_char` for the fill
glyph. -/
def progressbar_fill_times (bar : progressbar) (screen_width : Int) : Nat :=
  toSizeT (progressbar_piece_current bar screen_width)

/-- The `int` value of the unfilled repeat expression in `progressbar_draw`:
`bar_piece_count - bar_piece_current - (tumbler_length == 0 ? 0 : current == count ? 0 : 1)`. -/
def progressbar_unfilled_int (bar : progressbar) (screen_width : Int) : Int :=
  progressbar_piece_count bar screen_width - progressbar_piece_current bar screen_width -
    (if tumbler_length bar = 0 then 0
     else if progressbar_piece_current bar screen_width = progressbar_piece_count bar screen_width then 0
     else 1)

/-- The `size_t` repeat count handed to `progressbar_write_char` for the
unfilled glyph. -/
def progressbar_unfilled_times (bar : progressbar) (screen_width : Int) : Nat :=
  toSizeT (progressbar_unfilled_int bar screen_width)

/-- The value of `bar_width` after the `label_width == 0` branch of
`progressbar_draw` executes `bar_width += 1`. In the source this grown value
is dead: `bar_piece_count` was computed from the original `bar_width` and no
later statement reads `bar_width`. -/
def progressbar_effective_bar_width (screen_width label_length : Int) : Int :=
  let bw := progressbar_bar_width screen_width label_length
  if progressbar_label_width screen_width label_length bw = 0 then bw + 1 else bw

/-- `progressbar_draw`: one redraw of the bar line. Returns the updated state
(the tumbler cursor advances when a tumbler cell is painted) and the bytes
written to `stderr`, ending in a carriage return. `screen_width` stands for
the `get_screen_width()` result after its conversion to `int`, and `now` for
`time(NULL)`. -/
def progressbar_draw (bar : progressbar) (screen_width now : Int) : progressbar × List Char :=
  let label_length : Int := bar.label.length
  let bar_width := progressbar_bar_width screen_width label_length
  let label_width := progressbar_label_width screen_width label_length bar_width
  let eta :=
    if progressbar_completed bar then
      progressbar_calc_time_components (now - bar.start)
    else
      progressbar_calc_time_components (progressbar_remaining_seconds bar now)
  -- Source: when label_width == 0 the code runs `bar_width += 1` so the bar
  -- can use the label's space; the grown width is
  -- `progressbar_effective_bar_width`, and no statement after the increment
  -- reads it (`bar_piece_count` was computed from the original width).
  let labelPart : List Char :=
    if label_width = 0 then [] else bar.label.take label_width.toNat ++ [' ']
  let spinnerPart : List Char :=
    if progressbar_spinner_drawn bar screen_width then
      [bar.tumblerFormat.getD bar.tumblerPos ' ']
    else
      []
  let out := labelPart
    ++ [bar.fmtBegin]
    ++ progressbar_write_char bar.fmtFill (progressbar_fill_times bar screen_width)
    ++ spinnerPart
    ++ progressbar_write_char bar.fmtUnfilled (progressbar_unfilled_times bar screen_width)
    ++ [bar.fmtEnd]
    ++ [' ']
    ++ progressbar_time_field (progressbar_completed bar) eta
    ++ ['\r']
  let bar1 :=
    if progressbar_spinner_drawn bar screen_width then
      { bar with tumblerPos := (bar.tumblerPos + 1) % tumbler_length bar }
    else
      bar
  (bar1, out)

/-- `progressbar_update_label`: store the new borrowed label pointer. No
other field is touched and nothing is written to the sink. -/
def progressbar_update_label (bar : progressbar) (label : List Char) : progressbar × List Char :=
  ({ bar with label := label }, [])

/-- The force-to-complete step at the top of `progressbar_finish`: in percent
mode set `percent` to 1.0; in steps mode change nothing. -/
def progressbar_force_complete (bar : progressbar) : progressbar :=
  if bar.max < 0 then { bar with percent := 1 } else bar

/-- `progressbar_finish`: force completion, draw once, print one newline,
then free the bar. The released storage is modelled by returning only the
emitted bytes. -/
def progressbar_finish (bar : progressbar) (screen_width now : Int) : List Char :=
  (progressbar_draw (progressbar_force_complete bar) screen_width now).2 ++ ['\n']

/-- C conversion of `int` to `unsigned int` (32-bit): reduction
modulo 2 ^ 32. The `return tgetnum("co")` in `get_screen_width` performs this
conversion, since the function returns `unsigned int`. -/
def toUnsigned (n : Int) : Nat := (n % (2 : Int) ^ 32).toNat

/-- `get_screen_width`. Termcap convention: `tgetent` returns 1 on success,
0 when the terminal type has no entry, and -1 when the capability database
is unavailable; `tgetnum("co")` returns the column count, or -1 when the
entry has no column capability. The source tests `tgetent(...) >= 0`, so
only a negative `tgetent` result yields the default width. -/
def get_screen_width (tgetent_result tgetnum_co : Int) : Nat :=
  if 0 ≤ tgetent_result then toUnsigned tgetnum_co
  else DEFAULT_SCREEN_WIDTH

/-- The state built by a successful allocation followed by the constructor's
field stores and `progressbar_assign_values`. The source asserts
`strlen(format) == 4` (aborting otherwise); the four glyphs are read here
with a default that the assertion makes unreachable. A NULL tumbler format
is the empty list. -/
def progressbar_construct (label : List Char) (maxv valuev : Int) (percentv : Rat)
    (now : Int) (format tumbler : List Char) : progressbar :=
  { max := maxv
    value := valuev
    percent := percentv
    start := now
    label := label
    fmtBegin := format.getD 0 ' '
    fmtFill := format.getD 1 ' '
    fmtUnfilled := format.getD 2 ' '
    fmtEnd := format.getD 3 ' '
    tumblerFormat := tumbler
    tumblerPos := 0 }

/-- Return-path model of `progressbar_new_with_format`: `some r` means a
return statement executed with value `r` (`some none` models `return NULL`
on allocation failure); `none` would mean control left the function without
a return. The draw the constructor performs is a side effect on the sink and
is not part of the returned value. -/
def progressbar_new_with_format (alloc_ok : Bool) (label : List Char) (maxv : Int)
    (format : List Char) (now : Int) : Option (Option progressbar) :=
  if alloc_ok = false then some none
  else some (some (progressbar_construct label maxv 0 0 now format []))

/-- Return-path model of `progressbar_new_percent_with_format`. On allocation
failure the source returns NULL; on the success path it builds the bar
(`max = -1`, `percent = 0.0`), draws, and then reaches the closing brace with
no return statement, so no value is returned (`none`). -/
def progressbar_new_percent_with_format (alloc_ok : Bool) (label : List Char)
    (format : List Char) (now : Int) : Option (Option progressbar) :=
  if alloc_ok = false then some none
  else none

/-- Return-path model of `progressbar_new_with_format_and_tumbler`; every
path returns. -/
def progressbar_new_with_format_and_tumbler (alloc_ok : Bool) (label : List Char)
    (maxv : Int) (format tumbler : List Char) (now : Int) : Option (Option progressbar) :=
  if alloc_ok = false then some none
  else some (some (progressbar_construct label maxv 0 0 now format tumbler))

/-- Return-path model of `progressbar_new_percent_with_format_and_tumbler`;
every path returns (this percent constructor does end with `return pb`). -/
def progressbar_new_percent_with_format_and_tumbler (alloc_ok : Bool) (label : List Char)
    (format tumbler : List Char) (now : Int) : Option (Option progressbar) :=
  if alloc_ok = false then some none
  else some (some (progressbar_construct label (-1) 0 0 now format tumbler))

/-- `progressbar_new`: the default-format steps constructor. -/
def progressbar_new (alloc_ok : Bool) (label : List Char) (maxv : Int)
    (now : Int) : Option (Option progressbar) :=
  progressbar_new_with_format alloc_ok label maxv ("|= |".toList) now

/-- `progressbar_new_percent`: the default-format percent constructor. -/
def progressbar_new_percent (alloc_ok : Bool) (label : List Char)
    (now : Int) : Option (Option progressbar) :=
  progressbar_new_percent_with_format alloc_ok label ("|= |".toList) now

/-- In-range progress in the sense of the spec: `0 <= value <= max` in steps
mode (nonnegative `max`), `0 <= fraction <= 1` in percent mode. -/
def progressbar_in_range (bar : progressbar) : Prop :=
  (bar.max < 0 → 0 ≤ bar.percent ∧ bar.percent ≤ 1) ∧
  (0 ≤ bar.max → 0 ≤ bar.value ∧ bar.value ≤ bar.max)

instance (bar : progressbar) : Decidable (progressbar_in_range bar) := by
  unfold progressbar_in_range
  infer_instance

/-! ### Helper lemmas about truncation and the layout -/

lemma truncToInt_of_nonneg (q : Rat) (h : 0 ≤ q) : truncToInt q = ⌊q⌋ := by
  unfold truncToInt
  rw [Int.tdiv_eq_ediv (Rat.num_nonneg.mpr h) (Int.natCast_nonneg q.den), Rat.floor_def]

lemma truncToInt_neg (q : Rat) : truncToInt (-q) = -truncToInt q := by
  unfold truncToInt
  rw [Rat.neg_num, Rat.neg_den, Int.neg_tdiv]

lemma truncToInt_of_nonpos (q : Rat) (h : q ≤ 0) : truncToInt q = ⌈q⌉ := by
  have h1 : truncToInt q = -truncToInt (-q) := by
    rw [truncToInt_neg, neg_neg]
  rw [h1, truncToInt_of_nonneg (-q) (neg_nonneg.mpr h)]
  rfl

lemma truncToInt_nonneg (q : Rat) (h : 0 ≤ q) : 0 ≤ truncToInt q := by
  rw [truncToInt_of_nonneg q h]
  exact Int.floor_nonneg.mpr h

lemma truncToInt_lt (q : Rat) (n : Int) (h0 : 0 ≤ q) (h : q < (n : Rat)) :
    truncToInt q < n := by
  rw [truncToInt_of_nonneg q h0]
  exact Int.floor_lt.mpr h

lemma truncToInt_mono_of_nonneg (q1 q2 : Rat) (h0 : 0 ≤ q1) (h : q1 ≤ q2) :
    truncToInt q1 ≤ truncToInt q2 := by
  rw [truncToInt_of_nonneg _ h0, truncToInt_of_nonneg _ (le_trans h0 h)]
  exact Int.floor_le_floor h

lemma truncToInt_eq_zero (q : Rat) (h1 : -1 < q) (h2 : q < 1) : truncToInt q = 0 := by
  rcases le_or_lt 0 q with h | h
  · rw [truncToInt_of_nonneg q h]
    exact Int.floor_eq_zero_iff.mpr ⟨h, h2⟩
  · rw [truncToInt_of_nonpos q h.le]
    exact Int.ceil_eq_zero_iff.mpr ⟨h1, h.le⟩

lemma le_progressbar_max_left (x y : Int) : x ≤ progressbar_max x y := by
  unfold progressbar_max
  split <;> omega

lemma le_progressbar_max_right (x y : Int) : y ≤ progressbar_max x y := by
  unfold progressbar_max
  split <;> omega

lemma progressbar_bar_width_ge (sw ll : Int) : 10 ≤ progressbar_bar_width sw ll :=
  le_progressbar_max_left _ _

lemma progressbar_piece_count_ge (bar : progressbar) (sw : Int) :
    8 ≤ progressbar_piece_count bar sw := by
  unfold progressbar_piece_count BAR_BORDER_WIDTH
  have := progressbar_bar_width_ge sw (bar.label.length : Int)
  omega

lemma progressbar_progress_nonneg (bar : progressbar) (h : progressbar_in_range bar) :
    0 ≤ progressbar_progress bar := by
  unfold progressbar_progress
  split
  · exact (h.1 (by assumption)).1
  · rename_i hm
    apply div_nonneg
    · exact_mod_cast (h.2 (by omega)).1
    · exact_mod_cast (by omega : (0 : Int) ≤ bar.max)

lemma progressbar_progress_lt_one (bar : progressbar) (h : progressbar_in_range bar)
    (hc : progressbar_completed bar = false) : progressbar_progress bar < 1 := by
  unfold progressbar_progress
  unfold progressbar_completed at hc
  split
  · rename_i hm
    rw [if_pos hm] at hc
    simpa using hc
  · rename_i hm
    rw [if_neg hm] at hc
    have hvm : bar.value < bar.max := by simpa using hc
    have hv : 0 ≤ bar.value := (h.2 (by omega)).1
    have hmpos : (0 : Rat) < (bar.max : Rat) := by exact_mod_cast (by omega : (0:Int) < bar.max)
    rw [div_lt_one hmpos]
    exact_mod_cast hvm

lemma progressbar_piece_raw_nonneg (bar : progressbar) (sw : Int)
    (h : progressbar_in_range bar) : 0 ≤ progressbar_piece_raw bar sw := by
  unfold progressbar_piece_raw
  split
  · have := progressbar_piece_count_ge bar sw
    omega
  · apply truncToInt_nonneg
    apply mul_nonneg
    · have := progressbar_piece_count_ge bar sw
      exact_mod_cast (by omega : (0 : Int) ≤ progressbar_piece_count bar sw)
    · exact progressbar_progress_nonneg bar h

lemma progressbar_piece_raw_lt_count (bar : progressbar) (sw : Int)
    (h : progressbar_in_range bar) (hc : progressbar_completed bar = false) :
    progressbar_piece_raw bar sw < progressbar_piece_count bar sw := by
  unfold progressbar_piece_raw
  rw [if_neg (by simp [hc])]
  apply truncToInt_lt
  · apply mul_nonneg
    · have := progressbar_piece_count_ge bar sw
      exact_mod_cast (by omega : (0 : Int) ≤ progressbar_piece_count bar sw)
    · exact progressbar_progress_nonneg bar h
  · have hcpos : (0 : Rat) < (progressbar_piece_count bar sw : Rat) := by
      have := progressbar_piece_count_ge bar sw
      exact_mod_cast (by omega : (0 : Int) < progressbar_piece_count bar sw)
    calc (progressbar_piece_count bar sw : Rat) * progressbar_progress bar
        < (progressbar_piece_count bar sw : Rat) * 1 := by
          exact mul_lt_mul_of_pos_left (progressbar_progress_lt_one bar h hc) hcpos
      _ = (progressbar_piece_count bar sw : Rat) := mul_one _

lemma progressbar_piece_raw_of_completed (bar : progressbar) (sw : Int)
    (hc : progressbar_completed bar = true) :
    progressbar_piece_raw bar sw = progressbar_piece_count bar sw := by
  unfold progressbar_piece_raw
  rw [if_pos hc]

lemma progressbar_piece_current_nonneg (bar : progressbar) (sw : Int)
    (h : progressbar_in_range bar) : 0 ≤ progressbar_piece_current bar sw := by
  have hraw := progressbar_piece_raw_nonneg bar sw h
  unfold progressbar_piece_current
  split
  · exact hraw
  · split
    · exact hraw
    · omega

lemma progressbar_piece_current_of_completed (bar : progressbar) (sw : Int)
    (hc : progressbar_completed bar = true) :
    progressbar_piece_current bar sw = progressbar_piece_count bar sw := by
  unfold progressbar_piece_current
  rw [if_pos (Or.inl hc), progressbar_piece_raw_of_completed bar sw hc]

lemma progressbar_piece_current_le_raw (bar : progressbar) (sw : Int) :
    progressbar_piece_current bar sw ≤ progressbar_piece_raw bar sw := by
  unfold progressbar_piece_current
  split
  · omega
  · split <;> omega

lemma progressbar_unfilled_int_nonneg (bar : progressbar) (sw : Int)
    (h : progressbar_in_range bar) : 0 ≤ progressbar_unfilled_int bar sw := by
  have h8 := progressbar_piece_count_ge bar sw
  by_cases hc : progressbar_completed bar = true
  · -- completed: current equals the piece count and the subtrahends vanish
    have hcur := progressbar_piece_current_of_completed bar sw hc
    unfold progressbar_unfilled_int
    rw [hcur]
    split
    · omega
    · rw [if_pos rfl]
      omega
  · -- not completed: the raw fill stays below the piece count
    have hcf : progressbar_completed bar = false := by simpa using hc
    have hraw0 := progressbar_piece_raw_nonneg bar sw h
    have hrawlt := progressbar_piece_raw_lt_count bar sw h hcf
    have hcurle := progressbar_piece_current_le_raw bar sw
    have hcur0 := progressbar_piece_current_nonneg bar sw h
    unfold progressbar_unfilled_int
    split
    · omega
    · split
      · omega
      · omega

/-! ### Sample states used by witnesses and counterexamples -/

/-- A steps-mode bar with the default glyphs and no tumbler. -/
def sample_steps_bar : progressbar :=
  { max := 10
    value := 3
    percent := 0
    start := 0
    label := "Emerging".toList
    fmtBegin := '|'
    fmtFill := '='
    fmtUnfilled := ' '
    fmtEnd := '|'
    tumblerFormat := []
    tumblerPos := 0 }

/-! ### Claim theorems -/

/-- C9: `progressbar_update_label` writes no bytes to the output sink,
modifies no field of the bar other than the label (which it replaces,
without copying), and the new label first affects the bytes emitted at the
next draw, which is exactly the draw of the bar with the label swapped. -/
theorem C9_relabel_lazy (bar : progressbar) (l : List Char) :
    (progressbar_update_label bar l).2 = [] ∧
    (progressbar_update_label bar l).1 = { bar with label := l } ∧
    ∀ sw now : Int,
      progressbar_draw (progressbar_update_label bar l).1 sw now =
        progressbar_draw { bar with label := l } sw now :=
  ⟨rfl, rfl, fun _ _ => rfl⟩

/-- C6: the claim requires every constructor variant to return a value on
every control path. The percent constructor `progressbar_new_percent_with_format`
violates this in the source: its success path reaches the end of the function
with no return statement (modelled as `none`), while its allocation-failure
path returns NULL (`some none`) and the steps constructor returns the bar on
success. This theorem evaluates the three paths. -/
theorem C6_percent_constructor_return_paths :
    progressbar_new_percent_with_format true ("Loading".toList) ("|= |".toList) 0 = none ∧
    progressbar_new_percent_with_format false ("Loading".toList) ("|= |".toList) 0 = some none ∧
    (progressbar_new_with_format true ("Loading".toList) 10 ("|= |".toList) 0).isSome = true := by
  refine ⟨rfl, rfl, rfl⟩

/-- C7 counterexample: a capability lookup failure that does not yield 80.
With `tgetent` succeeding (result 1) but the terminal entry lacking the
column capability, `tgetnum("co")` returns -1, and `get_screen_width`
returns its conversion to `unsigned int`, 4294967295, not the default 80. -/
theorem C7_missing_capability_counterexample :
    get_screen_width 1 (-1) = 4294967295 ∧ ¬ get_screen_width 1 (-1) = 80 := by
  constructor
  · decide
  · decide

/-- C7 amended: `get_screen_width` returns the default 80 exactly when
`tgetent` reports a negative result (capability database unavailable); for
any nonnegative `tgetent` result — including 0, terminal type not found — it
returns the `tgetnum` result converted to `unsigned int`, which is the
column count when the capability is present and 4294967295 when it is
absent (`tgetnum` yields -1). -/
theorem C7_screen_width_amended (e n : Int) :
    (e < 0 → get_screen_width e n = 80) ∧
    (0 ≤ e → 0 ≤ n → n < 2 ^ 32 → get_screen_width e n = n.toNat) ∧
    (0 ≤ e → get_screen_width e (-1) = 2 ^ 32 - 1) := by
  refine ⟨?_, ?_, ?_⟩
  · intro h
    unfold get_screen_width
    rw [if_neg (by omega)]
    rfl
  · intro h1 h2 h3
    unfold get_screen_width toUnsigned
    rw [if_pos h1, Int.emod_eq_of_lt h2 (by omega)]
  · intro h
    unfold get_screen_width toUnsigned
    rw [if_pos h]
    decide

/-- Witness for C7 amended: a failed `tgetent` (-1) makes the probe return
the default width 80. -/
theorem C7_screen_width_amended_witness :
    (-1 : Int) < 0 ∧ get_screen_width (-1) 132 = 80 :=
  ⟨by decide, (C7_screen_width_amended (-1) 132).1 (by decide)⟩

/-- The bytes of one draw always end in a carriage return. -/
lemma progressbar_draw_ends_cr (bar : progressbar) (sw now : Int) :
    (progressbar_draw bar sw now).2.getLast? = some '\r' :=
  List.getLast?_concat _

/-- C5: `progressbar_finish` first forces completion — in percent mode it
sets the fraction to 1, in steps mode it changes nothing, and no other field
is modified — then performs exactly one draw, whose bytes end with a
carriage return, then emits exactly one newline; the released storage is
modelled by `progressbar_finish` returning only the emitted bytes. -/
theorem C5_finish_forces_draws_newline (bar : progressbar) (sw now : Int) :
    progressbar_finish bar sw now =
      (progressbar_draw (progressbar_force_complete bar) sw now).2 ++ ['\n'] ∧
    (progressbar_force_complete bar).max = bar.max ∧
    (progressbar_force_complete bar).value = bar.value ∧
    (progressbar_force_complete bar).start = bar.start ∧
    (progressbar_force_complete bar).label = bar.label ∧
    (progressbar_force_complete bar).tumblerFormat = bar.tumblerFormat ∧
    (progressbar_force_complete bar).tumblerPos = bar.tumblerPos ∧
    (bar.max < 0 → (progressbar_force_complete bar).percent = 1) ∧
    (0 ≤ bar.max → progressbar_force_complete bar = bar) ∧
    (progressbar_draw (progressbar_force_complete bar) sw now).2.getLast? = some '\r' := by
  refine ⟨rfl, ?_, ?_, ?_, ?_, ?_, ?_, ?_, ?_, progressbar_draw_ends_cr _ _ _⟩
  · unfold progressbar_force_complete
    split <;> rfl
  · unfold progressbar_force_complete
    split <;> rfl
  · unfold progressbar_force_complete
    split <;> rfl
  · unfold progressbar_force_complete
    split <;> rfl
  · unfold progressbar_force_complete
    split <;> rfl
  · unfold progressbar_force_complete
    split <;> rfl
  · intro h
    unfold progressbar_force_complete
    rw [if_pos h]
  · intro h
    unfold progressbar_force_complete
    rw [if_neg (by omega)]

/-- Witness for C5 at a concrete steps-mode bar. -/
theorem C5_finish_witness :
    (0 : Int) ≤ 10 ∧ progressbar_force_complete sample_steps_bar = sample_steps_bar :=
  ⟨by decide,
    (C5_finish_forces_draws_newline sample_steps_bar 80 0).2.2.2.2.2.2.2.2.1 (by decide)⟩

/-- C4: `progressbar_remaining_seconds` returns the truncation to an integer
of `(elapsed / value) * (max - value)` in steps mode when `value > 0` and
the elapsed time is positive, of `(elapsed / fraction) * (1 - fraction)` in
percent mode when the fraction is positive and the elapsed time is positive,
and 0 in every other case (no progress yet, or non-positive elapsed time). -/
theorem C4_remaining_seconds_formula (bar : progressbar) (now : Int) :
    (0 ≤ bar.max → 0 < bar.value → bar.start < now →
      progressbar_remaining_seconds bar now =
        truncToInt ((((now - bar.start : Int) : Rat) / (bar.value : Rat)) *
          (((bar.max - bar.value : Int)) : Rat))) ∧
    (bar.max < 0 → 0 < bar.percent → bar.start < now →
      progressbar_remaining_seconds bar now =
        truncToInt ((((now - bar.start : Int) : Rat) / bar.percent) * (1 - bar.percent))) ∧
    (progressbar_value_pos bar = false → progressbar_remaining_seconds bar now = 0) ∧
    (now ≤ bar.start → progressbar_remaining_seconds bar now = 0) := by
  refine ⟨?_, ?_, ?_, ?_⟩
  · intro hm hv hn
    have hvp : progressbar_value_pos bar = true := by
      unfold progressbar_value_pos
      rw [if_neg (by omega)]
      exact decide_eq_true hv
    unfold progressbar_remaining_seconds
    rw [if_pos ⟨by rw [hvp], by omega⟩, if_neg (by omega)]
  · intro hm hp hn
    have hvp : progressbar_value_pos bar = true := by
      unfold progressbar_value_pos
      rw [if_pos hm]
      exact decide_eq_true hp
    unfold progressbar_remaining_seconds
    rw [if_pos ⟨by rw [hvp], by omega⟩, if_pos hm]
  · intro hvp
    unfold progressbar_remaining_seconds
    rw [if_neg]
    rintro ⟨h1, -⟩
    rw [hvp] at h1
    exact Bool.false_ne_true h1
  · intro hn
    unfold progressbar_remaining_seconds
    rw [if_neg]
    rintro ⟨-, h2⟩
    omega

/-- Witness for C4: a steps-mode bar halfway through ten steps after ten
seconds. -/
theorem C4_remaining_seconds_witness :
    (0 : Int) ≤ 10 ∧ (0 : Int) < 5 ∧ (0 : Int) < 10 ∧
    progressbar_remaining_seconds { sample_steps_bar with value := 5 } 10 =
      truncToInt ((((10 - 0 : Int) : Rat) / ((5 : Int) : Rat)) * (((10 - 5 : Int)) : Rat)) :=
  ⟨by decide, by decide, by decide,
    (C4_remaining_seconds_formula { sample_steps_bar with value := 5 } 10).1
      (by decide) (by decide) (by decide)⟩

/-- C10: for every screen width the probe can hand the renderer (any integer,
including the negative values a failed capability lookup produces) and every
label, the computed bar width is at least 10 and the interior piece count at
least 8, so the borders-only case `pieces <= 0` is unreachable; and for
in-range states both glyph repeat counts passed to the emission loop are
nonnegative before their conversion to `size_t`. -/
theorem C10_layout_invariants (bar : progressbar) (sw : Int)
    (h : progressbar_in_range bar) :
    10 ≤ progressbar_bar_width sw (bar.label.length : Int) ∧
    8 ≤ progressbar_piece_count bar sw ∧
    0 ≤ progressbar_piece_current bar sw ∧
    0 ≤ progressbar_unfilled_int bar sw :=
  ⟨progressbar_bar_width_ge sw (bar.label.length : Int),
    progressbar_piece_count_ge bar sw,
    progressbar_piece_current_nonneg bar sw h,
    progressbar_unfilled_int_nonneg bar sw h⟩

/-- Witness for C10 at a concrete in-range bar and a negative probed width. -/
theorem C10_layout_invariants_witness :
    progressbar_in_range sample_steps_bar ∧
    8 ≤ progressbar_piece_count sample_steps_bar (-1) :=
  ⟨by decide, (C10_layout_invariants sample_steps_bar (-1) (by decide)).2.1⟩

/-- A percent-of-steps bar with an active tumbler and zero raw fill: one step
of one hundred not yet taken, label of one character, tumbler of length 4. -/
def c2_bar : progressbar :=
  { max := 100
    value := 0
    percent := 0
    start := 0
    label := ['X']
    fmtBegin := '|'
    fmtFill := '='
    fmtUnfilled := ' '
    fmtEnd := '|'
    tumblerFormat := ['/', '-', '\\', '|']
    tumblerPos := 0 }

lemma c2_bar_piece_raw : progressbar_piece_raw c2_bar 80 = 0 := by
  simp [progressbar_piece_raw, progressbar_completed, progressbar_progress, c2_bar,
    progressbar_piece_count, progressbar_bar_width, progressbar_max, MINIMUM_BAR_WIDTH,
    ETA_FORMAT_LENGTH, WHITESPACE_LENGTH, BAR_BORDER_WIDTH, truncToInt]

/-- C2 counterexample: on this non-complete bar with an active tumbler the
raw fill count is 0, yet the tumbler emission condition of the draw holds —
the spinner glyph is emitted even though no fill glyph is drawn — and the
unfilled repeat count is 61, one less than the full interior piece count 62,
contradicting the claim. -/
theorem C2_spinner_emitted_at_zero_fill :
    progressbar_piece_raw c2_bar 80 = 0 ∧
    progressbar_completed c2_bar = false ∧
    0 < tumbler_length c2_bar ∧
    progressbar_spinner_drawn c2_bar 80 = true ∧
    progressbar_piece_count c2_bar 80 = 62 ∧
    progressbar_unfilled_times c2_bar 80 = 61 := by
  have hraw := c2_bar_piece_raw
  have hcur : progressbar_piece_current c2_bar 80 = 0 := by
    unfold progressbar_piece_current
    rw [hraw]
    decide
  refine ⟨hraw, by decide, by decide, ?_, by decide, ?_⟩
  · unfold progressbar_spinner_drawn
    rw [hcur]
    exact decide_eq_true ⟨by decide, by decide⟩
  · unfold progressbar_unfilled_times progressbar_unfilled_int
    rw [hcur]
    decide

/-- C2 amended: when the raw fill count is 0 on a non-complete bar with an
active tumbler, no tumbler cell is reserved in the fill count (the fill
stays 0, avoiding a negative repeat count), but the tumbler glyph is still
emitted — its emission condition `current < pieces` holds — so the unfilled
repeat count is the interior piece count minus one, not the full count. -/
theorem C2_amended_zero_fill_spinner (bar : progressbar) (sw : Int)
    (hlen : 0 < tumbler_length bar)
    (hc : progressbar_completed bar = false)
    (hraw : progressbar_piece_raw bar sw = 0) :
    progressbar_piece_current bar sw = 0 ∧
    progressbar_fill_times bar sw = 0 ∧
    progressbar_spinner_drawn bar sw = true ∧
    progressbar_unfilled_int bar sw = progressbar_piece_count bar sw - 1 := by
  have h8 := progressbar_piece_count_ge bar sw
  have hcur : progressbar_piece_current bar sw = 0 := by
    unfold progressbar_piece_current
    rw [if_neg, if_pos hraw]
    · exact hraw
    · rintro (hcmp | hlen0)
      · rw [hc] at hcmp
        exact Bool.false_ne_true hcmp
      · omega
  refine ⟨hcur, ?_, ?_, ?_⟩
  · unfold progressbar_fill_times toSizeT
    rw [hcur]
    decide
  · unfold progressbar_spinner_drawn
    exact decide_eq_true ⟨hlen, by omega⟩
  · unfold progressbar_unfilled_int
    rw [hcur, if_neg (by omega), if_neg (by omega)]
    omega

/-- Witness for C2 amended at the concrete zero-fill tumbler bar. -/
theorem C2_amended_zero_fill_spinner_witness :
    0 < tumbler_length c2_bar ∧
    progressbar_completed c2_bar = false ∧
    progressbar_piece_raw c2_bar 80 = 0 ∧
    progressbar_spinner_drawn c2_bar 80 = true :=
  ⟨by decide, by decide, c2_bar_piece_raw,
    (C2_amended_zero_fill_spinner c2_bar 80 (by decide) (by decide) c2_bar_piece_raw).2.2.1⟩

/-- A steps-mode bar whose value has been set to a negative number. -/
def c3_bar : progressbar :=
  { max := 10
    value := -5
    percent := 0
    start := 0
    label := ['E', 'm', 'e', 'r', 'g', 'i', 'n', 'g']
    fmtBegin := '|'
    fmtFill := '='
    fmtUnfilled := ' '
    fmtEnd := '|'
    tumblerFormat := []
    tumblerPos := 0 }

lemma c3_bar_piece_raw : progressbar_piece_raw c3_bar 80 = -27 := by
  simp [progressbar_piece_raw, progressbar_completed, progressbar_progress, c3_bar,
    progressbar_piece_count, progressbar_bar_width, progressbar_max, MINIMUM_BAR_WIDTH,
    ETA_FORMAT_LENGTH, WHITESPACE_LENGTH, BAR_BORDER_WIDTH, truncToInt]
  norm_num
  decide

/-- C3 counterexample: a negative steps value does not render with zero fill
glyphs. At `value = -5`, `max = 10`, width 80 the truncated product is -27;
the `size_t` conversion at the `progressbar_write_char` call site turns it
into 2 ^ 64 - 27 = 18446744073709551589 fill-glyph repetitions. -/
theorem C3_negative_value_huge_fill :
    c3_bar.value < 0 ∧
    progressbar_fill_times c3_bar 80 = 18446744073709551589 ∧
    ¬ progressbar_fill_times c3_bar 80 = 0 := by
  have hcur : progressbar_piece_current c3_bar 80 = -27 := by
    unfold progressbar_piece_current
    rw [c3_bar_piece_raw]
    decide
  refine ⟨by decide, ?_, ?_⟩
  · unfold progressbar_fill_times toSizeT
    rw [hcur]
    decide
  · unfold progressbar_fill_times toSizeT
    rw [hcur]
    decide

lemma progressbar_piece_count_lt (bar : progressbar) (sw : Int) (hsw : sw < 2 ^ 31) :
    progressbar_piece_count bar sw < 2 ^ 64 := by
  have hl : (0 : Int) ≤ (bar.label.length : Int) := Int.natCast_nonneg _
  have e31 : ((2 : Int) ^ 31) = 2147483648 := by norm_num
  have e64 : ((2 : Int) ^ 64) = 18446744073709551616 := by norm_num
  unfold progressbar_piece_count progressbar_bar_width progressbar_max
    BAR_BORDER_WIDTH MINIMUM_BAR_WIDTH ETA_FORMAT_LENGTH WHITESPACE_LENGTH
  split <;> omega

lemma truncToInt_le_neg_one (q : Rat) (h : q ≤ -1) : truncToInt q ≤ -1 := by
  rw [truncToInt_of_nonpos q (by linarith)]
  exact Int.ceil_le.mpr (by exact_mod_cast h)

/-- When the truncated product is negative, the current piece count handed to
the `size_t` conversion is the truncated product lowered by the tumbler
adjustment (one more when a tumbler is active and the product is nonzero),
and the fill repeat count becomes `2 ^ 64 + current`, never zero. -/
lemma fill_times_of_neg_raw (bar : progressbar) (sw : Int)
    (hraw : progressbar_piece_raw bar sw ≤ -1)
    (hbound : -((2 : Int) ^ 64) < progressbar_piece_current bar sw) :
    progressbar_piece_current bar sw < 0 ∧
    progressbar_fill_times bar sw =
      ((2 : Int) ^ 64 + progressbar_piece_current bar sw).toNat ∧
    progressbar_fill_times bar sw ≠ 0 := by
  have hcur_le := progressbar_piece_current_le_raw bar sw
  have e64 : ((2 : Int) ^ 64) = 18446744073709551616 := by norm_num
  rw [e64] at hbound
  refine ⟨by omega, ?_, ?_⟩
  · unfold progressbar_fill_times toSizeT
    rw [e64]
    omega
  · unfold progressbar_fill_times toSizeT
    rw [e64]
    omega

/-- C3 amended: out-of-range progress renders as follows. Progress at or
above the maximum (steps `value >= max`, percent `fraction >= 1`) renders as
complete: all interior pieces filled and an unfilled count of zero. Negative
progress renders with zero fill glyphs only when the truncated product
`pieces * p` is zero, i.e. `-max < pieces * value` in steps mode, resp.
`-1 < pieces * fraction` in percent mode; otherwise the current fill count
is negative — the truncated product, lowered by one more when a tumbler is
active — and its `size_t` conversion makes the draw emit
`2 ^ 64 + current` fill glyphs, never zero. -/
theorem C3_amended_out_of_range (bar : progressbar) (sw : Int) :
    (0 ≤ bar.max → bar.max ≤ bar.value → sw < 2 ^ 31 →
      progressbar_fill_times bar sw = (progressbar_piece_count bar sw).toNat ∧
      progressbar_unfilled_int bar sw = 0) ∧
    (bar.max < 0 → 1 ≤ bar.percent → sw < 2 ^ 31 →
      progressbar_fill_times bar sw = (progressbar_piece_count bar sw).toNat ∧
      progressbar_unfilled_int bar sw = 0) ∧
    (0 < bar.max → bar.value < 0 →
      -bar.max < progressbar_piece_count bar sw * bar.value →
      progressbar_fill_times bar sw = 0) ∧
    (bar.max < 0 → bar.percent < 0 →
      -1 < (progressbar_piece_count bar sw : Rat) * bar.percent →
      progressbar_fill_times bar sw = 0) ∧
    (0 < bar.max → bar.value < 0 →
      progressbar_piece_count bar sw * bar.value ≤ -bar.max →
      -((2 : Int) ^ 64) < progressbar_piece_current bar sw →
      progressbar_piece_current bar sw < 0 ∧
      progressbar_fill_times bar sw =
        ((2 : Int) ^ 64 + progressbar_piece_current bar sw).toNat ∧
      progressbar_fill_times bar sw ≠ 0) ∧
    (bar.max < 0 → bar.percent < 0 →
      (progressbar_piece_count bar sw : Rat) * bar.percent ≤ -1 →
      -((2 : Int) ^ 64) < progressbar_piece_current bar sw →
      progressbar_piece_current bar sw < 0 ∧
      progressbar_fill_times bar sw =
        ((2 : Int) ^ 64 + progressbar_piece_current bar sw).toNat ∧
      progressbar_fill_times bar sw ≠ 0) := by
  have h8 := progressbar_piece_count_ge bar sw
  have completed_case : progressbar_completed bar = true → sw < 2 ^ 31 →
      progressbar_fill_times bar sw = (progressbar_piece_count bar sw).toNat ∧
      progressbar_unfilled_int bar sw = 0 := by
    intro hc hsw
    have hcur := progressbar_piece_current_of_completed bar sw hc
    have hlt := progressbar_piece_count_lt bar sw hsw
    have e64 : ((2 : Int) ^ 64) = 18446744073709551616 := by norm_num
    constructor
    · unfold progressbar_fill_times toSizeT
      rw [hcur, Int.emod_eq_of_lt (by omega) (by omega)]
    · unfold progressbar_unfilled_int
      rw [hcur]
      split
      · omega
      · rw [if_pos rfl]
        omega
  have zero_raw_case : progressbar_piece_raw bar sw = 0 →
      progressbar_fill_times bar sw = 0 := by
    intro hq
    have hcur : progressbar_piece_current bar sw = 0 := by
      unfold progressbar_piece_current
      rw [hq]
      simp
    unfold progressbar_fill_times toSizeT
    rw [hcur]
    decide
  refine ⟨?_, ?_, ?_, ?_, ?_, ?_⟩
  · intro hm hv hsw
    apply completed_case ?_ hsw
    unfold progressbar_completed
    rw [if_neg (by omega)]
    exact decide_eq_true hv
  · intro hm hp hsw
    apply completed_case ?_ hsw
    unfold progressbar_completed
    rw [if_pos hm]
    exact decide_eq_true hp
  · intro hmax hv hprod
    have hcomp : progressbar_completed bar = false := by
      unfold progressbar_completed
      rw [if_neg (by omega)]
      exact decide_eq_false (by omega)
    apply zero_raw_case
    unfold progressbar_piece_raw
    rw [if_neg (by rw [hcomp]; exact Bool.false_ne_true)]
    have hprg : progressbar_progress bar = (bar.value : Rat) / (bar.max : Rat) := by
      unfold progressbar_progress
      rw [if_neg (by omega)]
    rw [hprg]
    have hmq : (0 : Rat) < (bar.max : Rat) := by exact_mod_cast hmax
    apply truncToInt_eq_zero
    · rw [← mul_div_assoc, lt_div_iff hmq, neg_one_mul]
      have : ((progressbar_piece_count bar sw : Rat)) * (bar.value : Rat) =
          ((progressbar_piece_count bar sw * bar.value : Int) : Rat) := by push_cast; ring
      rw [this]
      exact_mod_cast hprod
    · have hvq : (bar.value : Rat) < 0 := by exact_mod_cast hv
      have hcq : (0 : Rat) ≤ (progressbar_piece_count bar sw : Rat) := by
        exact_mod_cast (by omega : (0 : Int) ≤ progressbar_piece_count bar sw)
      have hdiv : (bar.value : Rat) / (bar.max : Rat) < 0 := div_neg_of_neg_of_pos hvq hmq
      nlinarith
  · intro hmax hp hprod
    have hcomp : progressbar_completed bar = false := by
      unfold progressbar_completed
      rw [if_pos hmax]
      exact decide_eq_false (by intro h; linarith)
    apply zero_raw_case
    unfold progressbar_piece_raw
    rw [if_neg (by rw [hcomp]; exact Bool.false_ne_true)]
    have hprg : progressbar_progress bar = bar.percent := by
      unfold progressbar_progress
      rw [if_pos hmax]
    rw [hprg]
    have hcq : (0 : Rat) ≤ (progressbar_piece_count bar sw : Rat) := by
      exact_mod_cast (by omega : (0 : Int) ≤ progressbar_piece_count bar sw)
    apply truncToInt_eq_zero
    · exact hprod
    · nlinarith
  · intro hmax hv hprod hbound
    have hcomp : progressbar_completed bar = false := by
      unfold progressbar_completed
      rw [if_neg (by omega)]
      exact decide_eq_false (by omega)
    apply fill_times_of_neg_raw bar sw ?_ hbound
    unfold progressbar_piece_raw
    rw [if_neg (by rw [hcomp]; exact Bool.false_ne_true)]
    have hprg : progressbar_progress bar = (bar.value : Rat) / (bar.max : Rat) := by
      unfold progressbar_progress
      rw [if_neg (by omega)]
    rw [hprg]
    have hmq : (0 : Rat) < (bar.max : Rat) := by exact_mod_cast hmax
    apply truncToInt_le_neg_one
    rw [← mul_div_assoc, div_le_iff hmq, neg_one_mul]
    have hcast : ((progressbar_piece_count bar sw : Rat)) * (bar.value : Rat) =
        ((progressbar_piece_count bar sw * bar.value : Int) : Rat) := by push_cast; ring
    rw [hcast]
    exact_mod_cast hprod
  · intro hmax hp hprod hbound
    have hcomp : progressbar_completed bar = false := by
      unfold progressbar_completed
      rw [if_pos hmax]
      exact decide_eq_false (by intro h; linarith)
    apply fill_times_of_neg_raw bar sw ?_ hbound
    unfold progressbar_piece_raw
    rw [if_neg (by rw [hcomp]; exact Bool.false_ne_true)]
    have hprg : progressbar_progress bar = bar.percent := by
      unfold progressbar_progress
      rw [if_pos hmax]
    rw [hprg]
    exact truncToInt_le_neg_one _ hprod

/-- Witness for C3 amended: a steps bar at its maximum renders complete. -/
theorem C3_amended_out_of_range_witness :
    (0 : Int) ≤ 10 ∧ (10 : Int) ≤ 10 ∧ (80 : Int) < 2 ^ 31 ∧
    (progressbar_fill_times { sample_steps_bar with value := 10 } 80 =
      (progressbar_piece_count { sample_steps_bar with value := 10 } 80).toNat ∧
     progressbar_unfilled_int { sample_steps_bar with value := 10 } 80 = 0) :=
  ⟨by decide, by decide, by decide,
    (C3_amended_out_of_range { sample_steps_bar with value := 10 } 80).1
      (by decide) (by decide) (by decide)⟩

/-- The visibly advanced cells of one draw: emitted fill glyphs plus one for
the tumbler cell when the draw paints one. -/
def progressbar_advanced_cells (bar : progressbar) (sw : Int) : Int :=
  progressbar_piece_current bar sw +
    (if progressbar_spinner_drawn bar sw then 1 else 0)

lemma progressbar_spinner_drawn_of_completed (bar : progressbar) (sw : Int)
    (hc : progressbar_completed bar = true) :
    progressbar_spinner_drawn bar sw = false := by
  unfold progressbar_spinner_drawn
  rw [progressbar_piece_current_of_completed bar sw hc]
  exact decide_eq_false (by rintro ⟨-, h⟩; exact lt_irrefl _ h)

lemma progressbar_advanced_of_completed (bar : progressbar) (sw : Int)
    (hc : progressbar_completed bar = true) :
    progressbar_advanced_cells bar sw = progressbar_piece_count bar sw := by
  unfold progressbar_advanced_cells
  rw [progressbar_piece_current_of_completed bar sw hc,
    progressbar_spinner_drawn_of_completed bar sw hc]
  simp

lemma progressbar_advanced_of_not_completed (bar : progressbar) (sw : Int)
    (h : progressbar_in_range bar) (hc : progressbar_completed bar = false) :
    progressbar_advanced_cells bar sw =
      if tumbler_length bar = 0 then progressbar_piece_raw bar sw
      else max (progressbar_piece_raw bar sw) 1 := by
  have h8 := progressbar_piece_count_ge bar sw
  have hraw0 := progressbar_piece_raw_nonneg bar sw h
  have hrawlt := progressbar_piece_raw_lt_count bar sw h hc
  by_cases hlen : tumbler_length bar = 0
  · have hcur : progressbar_piece_current bar sw = progressbar_piece_raw bar sw := by
      unfold progressbar_piece_current
      rw [if_pos (Or.inr hlen)]
    have hspin : progressbar_spinner_drawn bar sw = false := by
      unfold progressbar_spinner_drawn
      exact decide_eq_false (by rintro ⟨h1, -⟩; omega)
    unfold progressbar_advanced_cells
    rw [hcur, hspin, if_pos hlen]
    simp
  · have hnotor : ¬ (progressbar_completed bar = true ∨ tumbler_length bar = 0) := by
      rintro (hcmp | hl)
      · rw [hc] at hcmp
        exact Bool.false_ne_true hcmp
      · exact hlen hl
    rw [if_neg hlen]
    by_cases hraw : progressbar_piece_raw bar sw = 0
    · have hcur : progressbar_piece_current bar sw = 0 := by
        unfold progressbar_piece_current
        rw [if_neg hnotor, if_pos hraw]
        exact hraw
      have hspin : progressbar_spinner_drawn bar sw = true := by
        unfold progressbar_spinner_drawn
        exact decide_eq_true ⟨Nat.pos_of_ne_zero hlen, by omega⟩
      unfold progressbar_advanced_cells
      rw [hcur, hspin, hraw]
      simp
    · have hcur : progressbar_piece_current bar sw = progressbar_piece_raw bar sw - 1 := by
        unfold progressbar_piece_current
        rw [if_neg hnotor, if_neg hraw]
      have hspin : progressbar_spinner_drawn bar sw = true := by
        unfold progressbar_spinner_drawn
        exact decide_eq_true ⟨Nat.pos_of_ne_zero hlen, by omega⟩
      unfold progressbar_advanced_cells
      rw [hcur, hspin]
      simp
      omega

/-- C8: in steps mode with the maximum, the label and the screen width (and
hence the interior piece count) held fixed, the number of visibly advanced
cells — emitted fill glyphs plus one when a tumbler cell is painted — is a
monotonically non-decreasing function of the value over nonnegative
values. -/
theorem C8_monotone_advanced_cells (bar : progressbar) (sw : Int) (v1 v2 : Int)
    (hmax : 0 ≤ bar.max) (h1 : 0 ≤ v1) (h12 : v1 ≤ v2) :
    progressbar_advanced_cells { bar with value := v1 } sw ≤
      progressbar_advanced_cells { bar with value := v2 } sw := by
  have hmn : ¬ ({ bar with value := v1 } : progressbar).max < 0 := by
    show ¬ bar.max < 0
    omega
  have hmn2 : ¬ ({ bar with value := v2 } : progressbar).max < 0 := by
    show ¬ bar.max < 0
    omega
  have hcnt1 : progressbar_piece_count { bar with value := v1 } sw =
      progressbar_piece_count bar sw := rfl
  have hcnt2 : progressbar_piece_count { bar with value := v2 } sw =
      progressbar_piece_count bar sw := rfl
  have h8 := progressbar_piece_count_ge bar sw
  by_cases hc2 : progressbar_completed { bar with value := v2 } = true
  · -- the larger value is completed: its advanced cells are the piece count
    rw [progressbar_advanced_of_completed _ sw hc2, hcnt2]
    by_cases hc1 : progressbar_completed { bar with value := v1 } = true
    · rw [progressbar_advanced_of_completed _ sw hc1, hcnt1]
    · have hc1f : progressbar_completed { bar with value := v1 } = false := by
        simpa using hc1
      have hv1lt : v1 < bar.max := by
        unfold progressbar_completed at hc1f
        rw [if_neg hmn] at hc1f
        have h' : ¬ (bar.max ≤ v1) := of_decide_eq_false hc1f
        omega
      have hin1 : progressbar_in_range { bar with value := v1 } := by
        constructor
        · intro hneg
          exact absurd (show bar.max < 0 from hneg) (by omega)
        · intro _
          exact ⟨h1, show v1 ≤ bar.max by omega⟩
      have hrawlt := progressbar_piece_raw_lt_count _ sw hin1 hc1f
      have hraw0 := progressbar_piece_raw_nonneg _ sw hin1
      rw [progressbar_advanced_of_not_completed _ sw hin1 hc1f]
      rw [hcnt1] at hrawlt
      split
      · omega
      · exact max_le (by omega) (by omega)
  · -- neither value is completed: monotonicity of the truncated product
    have hc2f : progressbar_completed { bar with value := v2 } = false := by
      simpa using hc2
    have hv2lt : v2 < bar.max := by
      unfold progressbar_completed at hc2f
      rw [if_neg hmn2] at hc2f
      have h' : ¬ (bar.max ≤ v2) := of_decide_eq_false hc2f
      omega
    have hc1f : progressbar_completed { bar with value := v1 } = false := by
      unfold progressbar_completed
      rw [if_neg hmn]
      exact decide_eq_false (show ¬ (bar.max ≤ v1) by omega)
    have hin1 : progressbar_in_range { bar with value := v1 } := by
      constructor
      · intro hneg
        exact absurd (show bar.max < 0 from hneg) (by omega)
      · intro _
        exact ⟨h1, show v1 ≤ bar.max by omega⟩
    have hin2 : progressbar_in_range { bar with value := v2 } := by
      constructor
      · intro hneg
        exact absurd (show bar.max < 0 from hneg) (by omega)
      · intro _
        exact ⟨show (0 : Int) ≤ v2 by omega, show v2 ≤ bar.max by omega⟩
    have hp1 : progressbar_progress { bar with value := v1 } =
        (v1 : Rat) / (bar.max : Rat) := by
      unfold progressbar_progress
      rw [if_neg hmn]
    have hp2 : progressbar_progress { bar with value := v2 } =
        (v2 : Rat) / (bar.max : Rat) := by
      unfold progressbar_progress
      rw [if_neg hmn2]
    have hmq : (0 : Rat) < (bar.max : Rat) := by
      exact_mod_cast (by omega : (0 : Int) < bar.max)
    have hcq : (0 : Rat) ≤ (progressbar_piece_count bar sw : Rat) := by
      exact_mod_cast (by omega : (0 : Int) ≤ progressbar_piece_count bar sw)
    have hv1q : (0 : Rat) ≤ (v1 : Rat) := by exact_mod_cast h1
    have hv12q : (v1 : Rat) ≤ (v2 : Rat) := by exact_mod_cast h12
    have hrawmono : progressbar_piece_raw { bar with value := v1 } sw ≤
        progressbar_piece_raw { bar with value := v2 } sw := by
      unfold progressbar_piece_raw
      rw [if_neg (by rw [hc1f]; exact Bool.false_ne_true),
        if_neg (by rw [hc2f]; exact Bool.false_ne_true), hp1, hp2, hcnt1, hcnt2]
      apply truncToInt_mono_of_nonneg
      · exact mul_nonneg hcq (div_nonneg hv1q (le_of_lt hmq))
      · apply mul_le_mul_of_nonneg_left _ hcq
        exact (div_le_div_right hmq).mpr hv12q
    rw [progressbar_advanced_of_not_completed _ sw hin1 hc1f,
      progressbar_advanced_of_not_completed _ sw hin2 hc2f]
    have hlen12 : tumbler_length { bar with value := v2 } =
        tumbler_length { bar with value := v1 } := rfl
    rw [hlen12]
    split
    · exact hrawmono
    · exact max_le_max hrawmono le_rfl

/-- Witness for C8 at concrete values 2 and 7 of a ten-step bar. -/
theorem C8_monotone_advanced_cells_witness :
    (0 : Int) ≤ 10 ∧ (0 : Int) ≤ 2 ∧ (2 : Int) ≤ 7 ∧
    progressbar_advanced_cells { sample_steps_bar with value := 2 } 80 ≤
      progressbar_advanced_cells { sample_steps_bar with value := 7 } 80 :=
  ⟨by decide, by decide, by decide,
    C8_monotone_advanced_cells sample_steps_bar 80 2 7 (by decide) (by decide) (by decide)⟩

/-- A completed steps bar with a one-character label, drawn on a 25-column
screen — the minimum width `MIN_BAR + ETA_LEN + WS` the claim admits. At
this width the label is squeezed out (`label_width = 0`). -/
def c1_bar : progressbar :=
  { max := 10
    value := 10
    percent := 0
    start := 0
    label := ['A']
    fmtBegin := '|'
    fmtFill := '='
    fmtUnfilled := ' '
    fmtEnd := '|'
    tumblerFormat := []
    tumblerPos := 0 }

/-- C1: the width-accounting claim fails when `label_width = 0`. The claim
counts the grown bar width (`bar_width + 1`), giving
`11 + 1 + ETA_FORMAT_LENGTH = 25` visible columns at screen width 25; but in
the source the `bar_width += 1` of the `label_width == 0` branch runs after
`bar_piece_count` was computed and is never read again, so the draw emits
only `10 + 1 + 13 = 24` visible columns (the byte count below includes the
terminating carriage return). The source's own comment says the bar "can use
that space instead", which the emission does not honor, so the code, not the
claim, is wrong. -/
theorem C1_grown_bar_width_not_emitted :
    progressbar_label_width 25 1 (progressbar_bar_width 25 1) = 0 ∧
    progressbar_effective_bar_width 25 1 + 1 + ETA_FORMAT_LENGTH = 25 ∧
    (progressbar_draw c1_bar 25 0).2.length - 1 = 24 := by
  refine ⟨by decide, by decide, by decide⟩
